import Mathlib

/-!
Verification of the depth-simulation core of this repository.

The embedding below is a shallow model of the TypeScript source, with JS
floating-point numbers modelled as exact rationals (`ℚ`).  All numeric
constants, branch conditions (including JS truthiness of `number | null`
values), and update orders follow the source; storage writes
(`localStorage.setItem` / `removeItem`), `requestAnimationFrame`
scheduling and purely visual state are external effects and are either
modelled as explicit fields/event lists or noted as omitted at each
definition.
-/

namespace Immovable

/-- Physics constants, from the constant block at the top of the App module. -/
def FRICTION : ℚ := 0.96

def GRAVITY : ℚ := 0.8

def GRAVITY_DEPTH_SCALE : ℚ := 0.0001

def GRAVITY_MAX : ℚ := 3.0

def IDLE_GRAVITY_DELAY_MS : ℚ := 2000

def MOVING_EPS : ℚ := 0.1

def SCROLL_MULTIPLIER : ℚ := 1.0

/-- Default pixels per cm: 96 CSS px per inch, 2.54 cm per inch. -/
def DEFAULT_PX_PER_CM : ℚ := 96 / 2.54

/-- Milestone thresholds for splits, in cm. -/
def MILESTONES_CM : List ℚ := [100, 500, 1000, 5000, 10000]

/-- `Math.sign` on a rational. -/
def jsSign (q : ℚ) : ℚ := if 0 < q then 1 else if q < 0 then -1 else 0

/-- `Math.abs` on a rational. -/
def jsAbs (q : ℚ) : ℚ := if q < 0 then -q else q

/-- A split record `{distanceCm, timeMs}` (src/types.ts). -/
structure SplitRecord where
  distanceCm : ℚ
  timeMs : ℚ
deriving DecidableEq

/-- One achievement entry (src/data/achievements.ts). -/
structure Achievement where
  key : String
  meters : ℚ
  label : String
  requirement : String
deriving DecidableEq

/-- The achievement table from src/data/achievements.ts (the 33-entry variant
imported by the App module). -/
def ACHIEVEMENTS : List Achievement := [
  ⟨"77.7", 77.7, "77.7m / いい感じのゾロ目", "77.7mに到達"⟩,
  ⟨"200", 200, "200m / 観覧車よりちょい高いかも", "200mに到達"⟩,
  ⟨"333", 333, "333m / 東京タワーのてっぺん", "333mに到達"⟩,
  ⟨"500", 500, "500m / なんかもう十分高い", "500mに到達"⟩,
  ⟨"634", 634, "634m / 東京スカイツリーのてっぺん", "634mに到達"⟩,
  ⟨"800", 800, "800m / 雲に片足つっこんだ気分", "800mに到達"⟩,
  ⟨"1000", 1000, "1000m / ついに1km", "1000mに到達"⟩,
  ⟨"1200", 1200, "1200m / 深呼吸がちょっと怖い", "1200mに到達"⟩,
  ⟨"1337", 1337, "1337m / 1337(LEET)って懐かしい", "1337mに到達"⟩,
  ⟨"1500", 1500, "1500m / ここまで来ると意地", "1500mに到達"⟩,
  ⟨"1609.34", 1609.34, "1609.34m / ちょうど1マイル", "1609.34mに到達"⟩,
  ⟨"1800", 1800, "1800m / 地図の縮尺が変わる", "1800mに到達"⟩,
  ⟨"2025", 2025, "2025m / 西暦2025年と同じ数字", "2025mに到達"⟩,
  ⟨"2200", 2200, "2200m / だいたい山ひとつ分", "2200mに到達"⟩,
  ⟨"2600", 2600, "2600m / そろそろ引き返す？", "2600mに到達"⟩,
  ⟨"2718.28", 2718.28, "2718.28m / ネイピア数 e のにおい", "2718.28mに到達"⟩,
  ⟨"3000", 3000, "3000m / 3kmおめでとう", "3000mに到達"⟩,
  ⟨"3141.59", 3141.59, "3141.59m / 円周率っぽい高度", "3141.59mに到達"⟩,
  ⟨"3500", 3500, "3500m / 空気が薄い気がする（気分）", "3500mに到達"⟩,
  ⟨"3776.12", 3776.12, "3776.12m / 富士山の標高", "3776.12mに到達"⟩,
  ⟨"4000", 4000, "4000m / スクロール職人見習い", "4000mに到達"⟩,
  ⟨"4444", 4444, "4444m / 4が並ぶとちょっと強そう", "4444mに到達"⟩,
  ⟨"4600", 4600, "4600m / ちょっとした遠征", "4600mに到達"⟩,
  ⟨"5300", 5300, "5300m / いったん休憩する？", "5300mに到達"⟩,
  ⟨"5778", 5778, "5778m / 太陽表面温度(K)らしい", "5778mに到達"⟩,
  ⟨"6100", 6100, "6100m / 指が主役になってきた", "6100mに到達"⟩,
  ⟨"6371", 6371, "6371m / 地球半径(km)と同じ数字", "6371mに到達"⟩,
  ⟨"7000", 7000, "7000m / もう戻れない感じ", "7000mに到達"⟩,
  ⟨"8100", 8100, "8100m / スクロール職人", "8100mに到達"⟩,
  ⟨"8848.86", 8848.86, "8848.86m / エベレストの標高", "8848.86mに到達"⟩,
  ⟨"9300", 9300, "9300m / 1万mが見えてきた", "9300mに到達"⟩,
  ⟨"10000", 10000, "10000m / 10km通過。暇人の境地？", "10000mに到達"⟩]

/-- The per-tick simulation state: the React state variables and the mutable
refs of the App component that the physics loop reads and writes.  Ref/state
pairs that the source keeps in lockstep (`splitsRef`/`splits`,
`totalDistanceRef`/`totalDistanceStatRef`/`totalDistance`, ...) are collapsed
into a single field each. -/
structure AppState where
  lastTime : Option ℚ
  depth : ℚ
  velocity : ℚ
  inputDelta : ℚ
  lastScrollDir : ℚ
  scrollCount : ℚ
  lastVelocity : ℚ
  lastMoveTime : Option ℚ
  runStartTime : Option ℚ
  runTime : ℚ
  splits : List SplitRecord
  passedMilestones : List ℚ
  totalDistance : ℚ
  aveSpeed : ℚ
  maxSpeed : ℚ
  maxAccel : ℚ
  currentSpeedMps : ℚ
  unlockedTitles : List String
  titleToast : Option String
deriving DecidableEq

/-- `dtSec` of a tick: `lastTime ? Math.max((time − lastTime)/1000, 1/120) : 1/60`.
JS truthiness makes a stored timestamp of exactly 0 behave like null. -/
def dtSecOf (lastTime : Option ℚ) (time : ℚ) : ℚ :=
  match lastTime with
  | some lt => if lt = 0 then 1 / 60 else max ((time - lt) / 1000) (1 / 120)
  | none => 1 / 60

/-- `directDelta`: the pending input drained this tick in direct mode, 0 under inertia. -/
def directDeltaOf (inertiaEnabled : Bool) (s : AppState) : ℚ :=
  if inertiaEnabled then 0 else s.inputDelta

/-- The velocity at the top of the tick, after the direct-mode assignment
`velocityRef.current = directDelta`. -/
def velocity0Of (inertiaEnabled : Bool) (s : AppState) : ℚ :=
  if inertiaEnabled then s.velocity else s.inputDelta

/-- Whether the direction-change counter fires this tick. -/
abbrev bumpScroll (inertiaEnabled : Bool) (s : AppState) : Prop :=
  jsSign (velocity0Of inertiaEnabled s) ≠ 0 ∧
    jsSign (velocity0Of inertiaEnabled s) ≠ s.lastScrollDir

/-- `pxPerSec = Math.abs(velocity)/dtSec` for this tick. -/
def pxPerSecOf (inertiaEnabled : Bool) (time : ℚ) (s : AppState) : ℚ :=
  jsAbs (velocity0Of inertiaEnabled s) / dtSecOf s.lastTime time

/-- `accelVal = |pxPerSec − lastVelocity| / dtSec` for this tick (px per s squared). -/
def accelValOf (inertiaEnabled : Bool) (time : ℚ) (s : AppState) : ℚ :=
  jsAbs (pxPerSecOf inertiaEnabled time s - s.lastVelocity) / dtSecOf s.lastTime time

/-- The `isMoving` test of the tick: velocity or drained input above `MOVING_EPS`. -/
abbrev isMovingOf (inertiaEnabled : Bool) (s : AppState) : Prop :=
  MOVING_EPS < jsAbs (velocity0Of inertiaEnabled s) ∨
    MOVING_EPS < jsAbs (directDeltaOf inertiaEnabled s)

/-- `lastMoveTimeRef` after the `isMoving` update. -/
def lastMoveTime1Of (inertiaEnabled : Bool) (time : ℚ) (s : AppState) : Option ℚ :=
  if isMovingOf inertiaEnabled s then some time else s.lastMoveTime

/-- `idleMs`: time since last motion (0 when no motion was ever recorded). -/
def idleMsOf (inertiaEnabled : Bool) (time : ℚ) (s : AppState) : ℚ :=
  match lastMoveTime1Of inertiaEnabled time s with
  | none => 0
  | some lm => time - lm

/-- Whether idle-delay gravity applies this tick. -/
abbrev allowGravityOf (inertiaEnabled : Bool) (time : ℚ) (s : AppState) : Prop :=
  IDLE_GRAVITY_DELAY_MS ≤ idleMsOf inertiaEnabled time s

/-- The physics integration of one tick, before the hard floor: returns the
pre-clamp `(depth, velocity)`.  Inertia branch: friction, then idle gravity on
depth (with an inner clamp to 0), then `depth += velocity`.  Direct branch:
apply the drained delta to depth (inner clamp), force velocity to the delta
(0 when the delta is 0), then idle gravity. -/
def physicsStep (inertiaEnabled : Bool) (allowGravity : Prop) [Decidable allowGravity]
    (directDelta depth velocity0 : ℚ) : ℚ × ℚ :=
  if inertiaEnabled then
    let v1 := velocity0 * FRICTION
    let d1 :=
      if allowGravity ∧ 0 < depth then
        let d := depth - min (GRAVITY + depth * GRAVITY_DEPTH_SCALE) GRAVITY_MAX
        if d < 0 then 0 else d
      else depth
    (d1 + v1, v1)
  else
    let d1 :=
      if directDelta ≠ 0 then
        let d := depth + directDelta
        if d < 0 then 0 else d
      else depth
    let v1 := if directDelta = 0 then 0 else velocity0
    let d2 :=
      if allowGravity ∧ 0 < d1 then
        let d := d1 - min (GRAVITY + d1 * GRAVITY_DEPTH_SCALE) GRAVITY_MAX
        if d < 0 then 0 else d
      else d1
    (d2, v1)

/-- The pre-clamp physics output of a tick from state `s` at timestamp `time`. -/
def physicsOut (inertiaEnabled : Bool) (time : ℚ) (s : AppState) : ℚ × ℚ :=
  physicsStep inertiaEnabled (allowGravityOf inertiaEnabled time s)
    (directDeltaOf inertiaEnabled s) s.depth (velocity0Of inertiaEnabled s)

/-- The bookkeeping at the top of the tick: timestamps, input draining, the
direction-change counter, and the per-tick speed sample. -/
def phase1 (inertiaEnabled : Bool) (time : ℚ) (s : AppState) : AppState :=
  { s with
    lastTime := some time
    inputDelta := if inertiaEnabled then s.inputDelta else 0
    velocity := velocity0Of inertiaEnabled s
    scrollCount := if bumpScroll inertiaEnabled s then s.scrollCount + 1 else s.scrollCount
    lastScrollDir :=
      if bumpScroll inertiaEnabled s then jsSign (velocity0Of inertiaEnabled s)
      else s.lastScrollDir
    lastVelocity := pxPerSecOf inertiaEnabled time s
    lastMoveTime := lastMoveTime1Of inertiaEnabled time s }

/-- Hard floor and run lifecycle ("// Hard floor / Reset" block): clamp to the
floor and reset all run aggregates when grounding an active run, or start the
run timer on take-off.  `d2`/`v2` are the pre-clamp physics results.  The
`clearRunState()` storage removal on grounding is an external effect. -/
def lifecycle (time d2 v2 : ℚ) (s1 : AppState) : AppState :=
  if d2 ≤ 0 then
    match s1.runStartTime with
    | some _ =>
      { s1 with
        depth := 0, velocity := 0, runStartTime := none, runTime := 0,
        splits := [], passedMilestones := [], totalDistance := 0, aveSpeed := 0,
        maxSpeed := 0, maxAccel := 0, currentSpeedMps := 0, scrollCount := 0,
        titleToast := none, lastMoveTime := none }
    | none => { s1 with depth := 0, velocity := 0 }
  else
    match s1.runStartTime with
    | none =>
      { s1 with
        depth := d2, velocity := v2, runStartTime := some time,
        passedMilestones := [], splits := [], totalDistance := 0, runTime := 0,
        aveSpeed := 0, maxSpeed := 0, maxAccel := 0 }
    | some _ => { s1 with depth := d2, velocity := v2 }

/-- `unlockOnce` inside `checkTitleUnlocks`: add the key if absent, recording a
(persist, notify) event; a present key is a no-op.  The accumulator carries
the unlocked-key list and the `(key, label)` events emitted so far (each event
is one `localStorage.setItem` of the set plus one toast). -/
def unlockOnce (key label : String) (acc : List String × List (String × String)) :
    List String × List (String × String) :=
  if key ∈ acc.1 then acc else (acc.1 ++ [key], acc.2 ++ [(key, label)])

/-- One achievement evaluation inside the `checkTitleUnlocks` loop. -/
def unlockStep (currentM : ℚ) (acc : List String × List (String × String))
    (a : Achievement) : List String × List (String × String) :=
  if a.meters ≤ currentM then unlockOnce a.key a.label acc else acc

/-- Fold of `checkTitleUnlocks` over an arbitrary achievement list. -/
def checkUnlocksAux (achs : List Achievement) (currentM : ℚ) (unlocked : List String) :
    List String × List (String × String) :=
  achs.foldl (unlockStep currentM) (unlocked, [])

/-- `checkTitleUnlocks(currentM)`: evaluate every achievement whose threshold is
at or below the current distance in meters against the unlocked-title set. -/
def checkTitleUnlocks (currentM : ℚ) (unlocked : List String) :
    List String × List (String × String) :=
  checkUnlocksAux ACHIEVEMENTS currentM unlocked

/-- The descending sort applied after each split append:
`.sort((a, b) => b.distanceCm - a.distanceCm)`. -/
def sortSplitsDesc (l : List SplitRecord) : List SplitRecord :=
  List.insertionSort (fun a b => b.distanceCm ≤ a.distanceCm) l

/-- One threshold evaluation inside the milestone loop. -/
def milestoneFoldStep (currentCm currentRunTime : ℚ)
    (acc : List ℚ × List SplitRecord) (m : ℚ) : List ℚ × List SplitRecord :=
  if m ≤ currentCm ∧ m ∉ acc.1 then
    (acc.1 ++ [m], sortSplitsDesc (acc.2 ++ [⟨m, currentRunTime⟩]))
  else acc

/-- The milestone check of one tick: for each configured threshold at or below
`currentCm` that is not yet passed, mark it passed and record a split stamped
with the current run time. -/
def milestoneStep (currentCm currentRunTime : ℚ) (passed : List ℚ)
    (splits : List SplitRecord) : List ℚ × List SplitRecord :=
  MILESTONES_CM.foldl (milestoneFoldStep currentCm currentRunTime) (passed, splits)

/-- The thresholds that fire on a tick with converted distance `currentCm`
and already-passed set `passed`, in the order the source iterates them. -/
def milestonesFired (currentCm : ℚ) (passed : List ℚ) : List ℚ :=
  MILESTONES_CM.filter (fun m => decide (m ≤ currentCm ∧ m ∉ passed))

/-- Section 2 of the tick ("Timer & Split Logic"): when a run is active,
update the run timer, evaluate achievements at the converted depth, and fire
milestone splits.  Returns the state and `currentRunTime` (0 when inactive).
The last unlock toast shown wins (`showTitleToast` overwrites). -/
def runSection (pxToCm time : ℚ) (m : AppState) : AppState × ℚ :=
  match m.runStartTime with
  | none => (m, 0)
  | some t0 =>
    let currentRunTime := time - t0
    let currentCm := m.depth * pxToCm
    let unlockRes := checkTitleUnlocks (currentCm / 100) m.unlockedTitles
    let msRes := milestoneStep currentCm currentRunTime m.passedMilestones m.splits
    ({ m with
        runTime := currentRunTime
        unlockedTitles := unlockRes.1
        titleToast :=
          match unlockRes.2.getLast? with
          | some e => some e.2
          | none => m.titleToast
        passedMilestones := msRes.1
        splits := msRes.2 }, currentRunTime)

/-- Section 3 of the tick: distance and speed statistics.  `frameDistance` is
the post-clamp velocity magnitude; `pxPerSec`/`accelVal` were sampled at the
top of the tick.  The average-speed guard is the JS-truthy test
`runStartTimeRef.current && currentRunTime > 0` (a start timestamp of exactly
0 is falsy). -/
def statsSection (pxToCm pxPerSec accelVal currentRunTime : ℚ) (s2 : AppState) : AppState :=
  let totalDistance3 := s2.totalDistance + jsAbs s2.velocity * pxToCm / 100
  { s2 with
    totalDistance := totalDistance3
    currentSpeedMps := pxPerSec * pxToCm / 100
    maxSpeed := max s2.maxSpeed (pxPerSec * pxToCm / 100)
    maxAccel := max s2.maxAccel (accelVal * pxToCm / 100)
    aveSpeed :=
      match s2.runStartTime with
      | some t0 =>
        if t0 ≠ 0 ∧ 0 < currentRunTime then totalDistance3 / (currentRunTime / 1000)
        else 0
      | none => 0 }

/-- The state after the hard-floor / lifecycle block of a tick. -/
def midState (inertiaEnabled : Bool) (time : ℚ) (s : AppState) : AppState :=
  lifecycle time (physicsOut inertiaEnabled time s).1 (physicsOut inertiaEnabled time s).2
    (phase1 inertiaEnabled time s)

/-- One tick of the `animate` callback.  The bounded-frequency
`persistRunState()` write, the high-score storage update, and the
`requestAnimationFrame` re-arm touch no simulation field and are omitted. -/
def animate (inertiaEnabled : Bool) (pxToCm time : ℚ) (s : AppState) : AppState :=
  statsSection pxToCm (pxPerSecOf inertiaEnabled time s) (accelValOf inertiaEnabled time s)
    (runSection pxToCm time (midState inertiaEnabled time s)).2
    (runSection pxToCm time (midState inertiaEnabled time s)).1

/-- Iterated ticks at the given sequence of frame timestamps. -/
def iterAnimate (inertiaEnabled : Bool) (pxToCm : ℚ) : List ℚ → AppState → AppState
  | [], s => s
  | t :: ts, s => iterAnimate inertiaEnabled pxToCm ts (animate inertiaEnabled pxToCm t s)

/-- The depth stays strictly positive after every tick of a timestamp
sequence (so the floor clamp never fires). -/
def depthStaysPos (inertiaEnabled : Bool) (pxToCm : ℚ) : List ℚ → AppState → Prop
  | [], _ => True
  | t :: ts, s =>
    0 < (animate inertiaEnabled pxToCm t s).depth ∧
      depthStaysPos inertiaEnabled pxToCm ts (animate inertiaEnabled pxToCm t s)

/-- The persisted run snapshot (`PersistedRunState` in the App module).  JS
numbers are rationals; the `savedAt` stamp is carried but unused by resume. -/
structure PersistedRunState where
  depth : ℚ
  velocity : ℚ
  runTime : ℚ
  splits : List SplitRecord
  passedMilestones : List ℚ
  aveSpeed : ℚ
  maxSpeed : ℚ
  totalDistance : ℚ
  maxAccel : ℚ
  currentSpeedMps : ℚ
  scrollCount : ℚ
  unlockedTitles : List String
  savedAt : ℚ
deriving DecidableEq

/-- `handleResumeRun` applied to a pending snapshot `p` at wall-clock `now`:
rehydrate the run refs from the snapshot (the `Array.isArray` / string-filter
guards are vacuous in this typed model, and `x || 0` on a rational is the
identity, so `Math.max(0, x || 0)` is `max 0 x`), set
`runStartTime = now − max(0, runTime)`, clear `lastTime`, and prime the idle
timer with `lastMoveTime = now`.  The re-persist of the unlocked-title set is
an external effect, and the display-only `setVelocity(Math.abs(...))` React
state is not part of the simulation refs modelled here (the ref itself gets
the snapshot velocity verbatim). -/
def handleResumeRun (now : ℚ) (p : PersistedRunState) (s : AppState) : AppState :=
  { s with
    depth := max 0 p.depth
    velocity := p.velocity
    runStartTime := some (now - max 0 p.runTime)
    lastTime := none
    lastMoveTime := some now
    passedMilestones := p.passedMilestones
    splits := p.splits
    runTime := max 0 p.runTime
    aveSpeed := max 0 p.aveSpeed
    maxSpeed := max 0 p.maxSpeed
    totalDistance := max 0 p.totalDistance
    maxAccel := max 0 p.maxAccel
    currentSpeedMps := max 0 p.currentSpeedMps
    scrollCount := max 0 p.scrollCount
    unlockedTitles := p.unlockedTitles }

/-- App-level shell around the simulation state: the pending-resume prompt
state and the content of the `immovable_run_state_v1` storage key. -/
structure AppShell where
  run : AppState
  pendingResume : Option PersistedRunState
  stored : Option PersistedRunState
deriving DecidableEq

/-- The startup load effect for the run snapshot: a stored, well-formed
snapshot with `depth > 0` only arms the resume prompt (`setPendingResume`);
the simulation state is untouched.  (`Number.isFinite` is vacuous on `ℚ`;
JSON parse failures, which delete the key, are outside this typed model.) -/
def startupLoad (sh : AppShell) : AppShell :=
  match sh.stored with
  | some p => if 0 < p.depth then { sh with pendingResume := some p } else sh
  | none => sh

/-- The resume button: rehydrate from the pending snapshot and dismiss the
prompt; a no-op when no snapshot is pending (`if (!pendingResume) return`). -/
def handleResumeRunShell (now : ℚ) (sh : AppShell) : AppShell :=
  match sh.pendingResume with
  | none => sh
  | some p => { sh with run := handleResumeRun now p sh.run, pendingResume := none }

/-- The discard button (`handleStartFresh`): delete the stored snapshot and
dismiss the prompt, leaving the simulation state untouched. -/
def handleStartFreshShell (sh : AppShell) : AppShell :=
  { sh with pendingResume := none, stored := none }

/-- Calibration reference objects (src/components/CardCalibration.tsx). -/
inductive CalibMode
  | ruler
  | coin
deriving DecidableEq

/-- One coin option `{label, diameterMm}`. -/
structure CoinOption where
  label : String
  diameterMm : ℚ
deriving DecidableEq

/-- The coin table from CardCalibration. -/
def COINS : List CoinOption := [
  ⟨"1円玉", 20.0⟩,
  ⟨"5円玉", 22.0⟩,
  ⟨"10円玉", 23.5⟩,
  ⟨"50円玉", 21.0⟩,
  ⟨"100円玉", 22.6⟩,
  ⟨"500円玉", 26.5⟩]

/-- The ruler reference length in cm. -/
def RULER_CM : ℚ := 5

/-- The displayed ruler length in px at the current scale. -/
def rulerLengthPx (initialPxPerCm scale : ℚ) : ℚ :=
  RULER_CM * initialPxPerCm * scale

/-- The displayed coin diameter in px at the current scale. -/
def coinDiameterPx (coin : CoinOption) (initialPxPerCm scale : ℚ) : ℚ :=
  coin.diameterMm / 10 * initialPxPerCm * scale

/-- `handleConfirm`: compute the confirmed px-per-cm factor from the displayed
size and the known physical size of the reference object. -/
def handleConfirm (mode : CalibMode) (coin : CoinOption) (initialPxPerCm scale : ℚ) : ℚ :=
  match mode with
  | .ruler => rulerLengthPx initialPxPerCm scale / RULER_CM
  | .coin => coinDiameterPx coin initialPxPerCm scale / (coin.diameterMm / 10)

/-- Decimal rounding to three places, modelling `+(x).toFixed(3)`. -/
def roundTo3 (q : ℚ) : ℚ := (round (q * 1000) : ℤ) / 1000

/-- The minus button next to the scale slider: step down by 0.005, clamped at
0.5. -/
def decScale (s : ℚ) : ℚ := max 0.5 (roundTo3 (s - 0.005))

/-- The plus button next to the scale slider: step up by 0.005, clamped at
1.8. -/
def incScale (s : ℚ) : ℚ := min 1.8 (roundTo3 (s + 0.005))

/-- App-side calibration state: the auto-estimate, the user override, and the
persisted override (`immovable_calibrated_px_per_cm`). -/
structure CalibState where
  autoPxPerCm : ℚ
  calibratedPxPerCm : Option ℚ
  storedCalibration : Option ℚ
deriving DecidableEq

/-- `handleCalibration` in the App: store the confirmed factor as the user
override, replacing any previous one, and persist it.  Note: no validation is
performed here. -/
def handleCalibration (pxPerCm : ℚ) (c : CalibState) : CalibState :=
  { c with calibratedPxPerCm := some pxPerCm, storedCalibration := some pxPerCm }

/-- `handleResetCalibration`: drop the user override and its persisted copy,
reverting the conversion to the auto-estimate. -/
def handleResetCalibration (c : CalibState) : CalibState :=
  { c with calibratedPxPerCm := none, storedCalibration := none }

/-- The startup load of the persisted calibration factor: accepted only when
finite and strictly positive (`Number.isFinite` is vacuous on `ℚ`), otherwise
the previous value is retained. -/
def loadCalibration (v : ℚ) (c : CalibState) : CalibState :=
  if 0 < v then { c with calibratedPxPerCm := some v } else c

/-- The CSS-probe auto-estimate effect: adopt `pxPer10Cm / 10` only when the
probe measured a positive width. -/
def autoProbe (pxPer10Cm : ℚ) (c : CalibState) : CalibState :=
  if 0 < pxPer10Cm then { c with autoPxPerCm := pxPer10Cm / 10 } else c

/-- The factor backing `pxToCm`: the user override when present, else the
auto-estimate (`calibratedPxPerCm ?? autoPxPerCm`). -/
def pxToCmFactor (c : CalibState) : ℚ := c.calibratedPxPerCm.getD c.autoPxPerCm

/-- `pxToCm = 1 / (calibratedPxPerCm ?? autoPxPerCm)`. -/
def pxToCm (c : CalibState) : ℚ := 1 / pxToCmFactor c

/-- Validity of a calibration state: the auto-estimate is positive, and so is
the override when present. -/
def calibValid (c : CalibState) : Prop :=
  0 < c.autoPxPerCm ∧ ∀ x ∈ c.calibratedPxPerCm, 0 < x

/-- Wheel event delta modes. -/
inductive WheelDeltaMode
  | pixel
  | line
  | page
deriving DecidableEq

/-- A wheel event, reduced to the fields the handler reads. -/
structure WheelEvent where
  deltaY : ℚ
  deltaMode : WheelDeltaMode
deriving DecidableEq

/-- The mutable refs the input handlers write: the velocity impulse target,
the pending direct-mode delta, and the touch anchor. -/
structure InputRefs where
  velocity : ℚ
  inputDelta : ℚ
  touchStartY : ℚ
deriving DecidableEq

/-- `isOverlayOpen`: any of the title gallery, the calibration overlay, or the
pending resume prompt. -/
def isOverlayOpen (showTitleGallery showCalibration : Bool)
    (pendingResume : Option PersistedRunState) : Bool :=
  showTitleGallery || showCalibration || pendingResume.isSome

/-- `normalizeWheelDelta`: line and page deltas are scaled to pixels.  The
source's `viewportHeightPx || window.innerHeight || 0` fallback chain is
modelled as the single resolved viewport height. -/
def normalizeWheelDelta (lineHeightPx viewportHeightPx : ℚ) (e : WheelEvent) : ℚ :=
  match e.deltaMode with
  | .line => e.deltaY * lineHeightPx
  | .page => e.deltaY * viewportHeightPx
  | .pixel => e.deltaY

/-- The wheel handler: discarded entirely while an overlay is open; otherwise
an impulse into velocity (inertia mode) or into the pending delta (direct
mode). -/
def handleWheel (overlay inertiaEnabled : Bool) (lineHeightPx viewportHeightPx : ℚ)
    (e : WheelEvent) (r : InputRefs) : InputRefs :=
  if overlay then r
  else
    if inertiaEnabled then
      { r with velocity :=
          r.velocity + normalizeWheelDelta lineHeightPx viewportHeightPx e *
            SCROLL_MULTIPLIER * 0.15 }
    else
      { r with inputDelta :=
          r.inputDelta + normalizeWheelDelta lineHeightPx viewportHeightPx e }

/-- The touch-start handler: anchors the touch position; discarded while an
overlay is open. -/
def onTouchStart (overlay : Bool) (clientY : ℚ) (r : InputRefs) : InputRefs :=
  if overlay then r else { r with touchStartY := clientY }

/-- The touch-move handler: moves the anchor and applies the finger delta as
an impulse (inertia) or a direct delta; discarded while an overlay is open. -/
def onTouchMove (overlay inertiaEnabled : Bool) (touchY : ℚ) (r : InputRefs) : InputRefs :=
  if overlay then r
  else
    if inertiaEnabled then
      { r with
        touchStartY := touchY
        velocity := r.velocity + (r.touchStartY - touchY) * SCROLL_MULTIPLIER * 0.25 }
    else
      { r with
        touchStartY := touchY
        inputDelta := r.inputDelta + (r.touchStartY - touchY) }

/-- The all-zero, grounded initial simulation state. -/
def zState : AppState :=
  { lastTime := none, depth := 0, velocity := 0, inputDelta := 0, lastScrollDir := 0,
    scrollCount := 0, lastVelocity := 0, lastMoveTime := none, runStartTime := none,
    runTime := 0, splits := [], passedMilestones := [], totalDistance := 0, aveSpeed := 0,
    maxSpeed := 0, maxAccel := 0, currentSpeedMps := 0, unlockedTitles := [],
    titleToast := none }

/-- A concrete active state about to ground: direct mode, a pending upward
delta of 50 px, depth 10 px, run started at timestamp 100. -/
def cexGroundState : AppState :=
  { lastTime := some 900, depth := 10, velocity := 7, inputDelta := -50,
    lastScrollDir := 0, scrollCount := 3, lastVelocity := 0, lastMoveTime := none,
    runStartTime := some 100, runTime := 900, splits := [], passedMilestones := [],
    totalDistance := 2, aveSpeed := 1, maxSpeed := 4, maxAccel := 0,
    currentSpeedMps := 0, unlockedTitles := [], titleToast := none }

/-- A concrete active state whose run-start timestamp is exactly 0 (JS-falsy),
deep enough that the tick stays active. -/
def cexZeroStartState : AppState :=
  { lastTime := some 900, depth := 1000, velocity := 100, inputDelta := 0,
    lastScrollDir := 1, scrollCount := 1, lastVelocity := 0, lastMoveTime := some 900,
    runStartTime := some 0, runTime := 900, splits := [], passedMilestones := [],
    totalDistance := 5, aveSpeed := 0, maxSpeed := 0, maxAccel := 0,
    currentSpeedMps := 0, unlockedTitles := [], titleToast := none }

/-- As `cexZeroStartState` but with a nonzero (truthy) run-start timestamp. -/
def witAveState : AppState :=
  { lastTime := some 900, depth := 1000, velocity := 100, inputDelta := 0,
    lastScrollDir := 1, scrollCount := 1, lastVelocity := 0, lastMoveTime := some 900,
    runStartTime := some 100, runTime := 900, splits := [], passedMilestones := [],
    totalDistance := 5, aveSpeed := 0, maxSpeed := 0, maxAccel := 0,
    currentSpeedMps := 0, unlockedTitles := [], titleToast := none }

/-- A concrete deep inertia state used for the friction-decay witness. -/
def witFrictionState : AppState :=
  { lastTime := some 0, depth := 1000000, velocity := 100, inputDelta := 0,
    lastScrollDir := 1, scrollCount := 1, lastVelocity := 0, lastMoveTime := some 0,
    runStartTime := some 0, runTime := 0, splits := [], passedMilestones := [],
    totalDistance := 0, aveSpeed := 0, maxSpeed := 0, maxAccel := 0,
    currentSpeedMps := 0, unlockedTitles := [], titleToast := none }

/-- A concrete pending snapshot matching the resume example of the spec. -/
def witSnapshot : PersistedRunState :=
  { depth := 500, velocity := 10, runTime := 30000, splits := [⟨100, 7000⟩],
    passedMilestones := [100], aveSpeed := 2, maxSpeed := 3, totalDistance := 6,
    maxAccel := 4, currentSpeedMps := 1, scrollCount := 5,
    unlockedTitles := ["77.7"], savedAt := 123456 }

/-- A concrete app shell holding the stored example snapshot at startup. -/
def witShell : AppShell :=
  { run := zState, pendingResume := some witSnapshot, stored := some witSnapshot }

/-- The initial calibration state: the CSS default estimate, no override. -/
def calibInit : CalibState :=
  { autoPxPerCm := DEFAULT_PX_PER_CM, calibratedPxPerCm := none, storedCalibration := none }

/-! ### Helper lemmas: the achievement-unlock fold -/

theorem unlockStep_mono (d : ℚ) (a : Achievement)
    (acc : List String × List (String × String)) : acc.1 ⊆ (unlockStep d acc a).1 := by
  rw [unlockStep]
  by_cases h : a.meters ≤ d
  · rw [if_pos h, unlockOnce]
    by_cases hk : a.key ∈ acc.1
    · rw [if_pos hk]
      exact fun x hx => hx
    · rw [if_neg hk]
      exact fun x hx => List.mem_append_left _ hx
  · rw [if_neg h]
    exact fun x hx => hx


theorem unlockFold_mono (d : ℚ) (l : List Achievement)
    (acc : List String × List (String × String)) :
    acc.1 ⊆ (l.foldl (unlockStep d) acc).1 := by
  induction l generalizing acc with
  | nil => exact fun x hx => hx
  | cons a l ih =>
    intro x hx
    rw [List.foldl_cons]
    exact ih (unlockStep d acc a) (unlockStep_mono d a acc hx)

theorem checkTitleUnlocks_mono (d : ℚ) (unlocked : List String) :
    unlocked ⊆ (checkTitleUnlocks d unlocked).1 :=
  unlockFold_mono d ACHIEVEMENTS (unlocked, [])

/-! ### Helper lemmas: phase-level characterizations of the tick -/

theorem statsSection_depth (c p a r : ℚ) (s : AppState) :
    (statsSection c p a r s).depth = s.depth := rfl

theorem statsSection_velocity (c p a r : ℚ) (s : AppState) :
    (statsSection c p a r s).velocity = s.velocity := rfl

theorem statsSection_runStartTime (c p a r : ℚ) (s : AppState) :
    (statsSection c p a r s).runStartTime = s.runStartTime := rfl

theorem statsSection_runTime (c p a r : ℚ) (s : AppState) :
    (statsSection c p a r s).runTime = s.runTime := rfl

theorem statsSection_splits (c p a r : ℚ) (s : AppState) :
    (statsSection c p a r s).splits = s.splits := rfl

theorem statsSection_passedMilestones (c p a r : ℚ) (s : AppState) :
    (statsSection c p a r s).passedMilestones = s.passedMilestones := rfl

theorem statsSection_unlockedTitles (c p a r : ℚ) (s : AppState) :
    (statsSection c p a r s).unlockedTitles = s.unlockedTitles := rfl

theorem statsSection_scrollCount (c p a r : ℚ) (s : AppState) :
    (statsSection c p a r s).scrollCount = s.scrollCount := rfl

theorem statsSection_totalDistance (c p a r : ℚ) (s : AppState) :
    (statsSection c p a r s).totalDistance = s.totalDistance + jsAbs s.velocity * c / 100 :=
  rfl

theorem statsSection_currentSpeedMps (c p a r : ℚ) (s : AppState) :
    (statsSection c p a r s).currentSpeedMps = p * c / 100 := rfl

theorem statsSection_maxSpeed (c p a r : ℚ) (s : AppState) :
    (statsSection c p a r s).maxSpeed = max s.maxSpeed (p * c / 100) := rfl

theorem statsSection_maxAccel (c p a r : ℚ) (s : AppState) :
    (statsSection c p a r s).maxAccel = max s.maxAccel (a * c / 100) := rfl

theorem statsSection_aveSpeed_none (c p a r : ℚ) (s : AppState)
    (h : s.runStartTime = none) : (statsSection c p a r s).aveSpeed = 0 := by
  simp only [statsSection, h]

theorem statsSection_aveSpeed_some (c p a r t0 : ℚ) (s : AppState)
    (h : s.runStartTime = some t0) :
    (statsSection c p a r s).aveSpeed =
      if t0 ≠ 0 ∧ 0 < r then
        (s.totalDistance + jsAbs s.velocity * c / 100) / (r / 1000)
      else 0 := by
  simp only [statsSection, h]

theorem runSection_none (c t : ℚ) (m : AppState) (h : m.runStartTime = none) :
    runSection c t m = (m, 0) := by
  simp only [runSection, h]

theorem runSection_some (c t t0 : ℚ) (m : AppState) (h : m.runStartTime = some t0) :
    runSection c t m =
      ({ m with
          runTime := t - t0
          unlockedTitles := (checkTitleUnlocks (m.depth * c / 100) m.unlockedTitles).1
          titleToast :=
            match (checkTitleUnlocks (m.depth * c / 100) m.unlockedTitles).2.getLast? with
            | some e => some e.2
            | none => m.titleToast
          passedMilestones :=
            (milestoneStep (m.depth * c) (t - t0) m.passedMilestones m.splits).1
          splits :=
            (milestoneStep (m.depth * c) (t - t0) m.passedMilestones m.splits).2 },
        t - t0) := by
  simp only [runSection, h]

theorem runSection_fst_depth (c t : ℚ) (m : AppState) :
    (runSection c t m).1.depth = m.depth := by
  cases h : m.runStartTime with
  | none => rw [runSection_none c t m h]
  | some t0 => rw [runSection_some c t t0 m h]

theorem runSection_fst_velocity (c t : ℚ) (m : AppState) :
    (runSection c t m).1.velocity = m.velocity := by
  cases h : m.runStartTime with
  | none => rw [runSection_none c t m h]
  | some t0 => rw [runSection_some c t t0 m h]

theorem runSection_fst_runStartTime (c t : ℚ) (m : AppState) :
    (runSection c t m).1.runStartTime = m.runStartTime := by
  cases h : m.runStartTime with
  | none => rw [runSection_none c t m h, h]
  | some t0 => rw [runSection_some c t t0 m h, h]

theorem runSection_fst_totalDistance (c t : ℚ) (m : AppState) :
    (runSection c t m).1.totalDistance = m.totalDistance := by
  cases h : m.runStartTime with
  | none => rw [runSection_none c t m h]
  | some t0 => rw [runSection_some c t t0 m h]

theorem runSection_fst_unlockedTitles_mono (c t : ℚ) (m : AppState) (k : String)
    (hk : k ∈ m.unlockedTitles) : k ∈ (runSection c t m).1.unlockedTitles := by
  cases h : m.runStartTime with
  | none => rw [runSection_none c t m h]; exact hk
  | some t0 => rw [runSection_some c t t0 m h]; exact checkTitleUnlocks_mono _ _ hk

theorem lifecycle_ground_reset (time d2 v2 t0 : ℚ) (s1 : AppState) (hd : d2 ≤ 0)
    (h : s1.runStartTime = some t0) :
    lifecycle time d2 v2 s1 =
      { s1 with
        depth := 0, velocity := 0, runStartTime := none, runTime := 0,
        splits := [], passedMilestones := [], totalDistance := 0, aveSpeed := 0,
        maxSpeed := 0, maxAccel := 0, currentSpeedMps := 0, scrollCount := 0,
        titleToast := none, lastMoveTime := none } := by
  simp only [lifecycle, if_pos hd, h]

theorem lifecycle_ground_idle (time d2 v2 : ℚ) (s1 : AppState) (hd : d2 ≤ 0)
    (h : s1.runStartTime = none) :
    lifecycle time d2 v2 s1 = { s1 with depth := 0, velocity := 0 } := by
  simp only [lifecycle, if_pos hd, h]

theorem lifecycle_start (time d2 v2 : ℚ) (s1 : AppState) (hd : ¬d2 ≤ 0)
    (h : s1.runStartTime = none) :
    lifecycle time d2 v2 s1 =
      { s1 with
        depth := d2, velocity := v2, runStartTime := some time,
        passedMilestones := [], splits := [], totalDistance := 0, runTime := 0,
        aveSpeed := 0, maxSpeed := 0, maxAccel := 0 } := by
  simp only [lifecycle, if_neg hd, h]

theorem lifecycle_cont (time d2 v2 t0 : ℚ) (s1 : AppState) (hd : ¬d2 ≤ 0)
    (h : s1.runStartTime = some t0) :
    lifecycle time d2 v2 s1 = { s1 with depth := d2, velocity := v2 } := by
  simp only [lifecycle, if_neg hd, h]

theorem phase1_runStartTime (b : Bool) (t : ℚ) (s : AppState) :
    (phase1 b t s).runStartTime = s.runStartTime := rfl

theorem phase1_depth (b : Bool) (t : ℚ) (s : AppState) :
    (phase1 b t s).depth = s.depth := rfl

theorem phase1_unlockedTitles (b : Bool) (t : ℚ) (s : AppState) :
    (phase1 b t s).unlockedTitles = s.unlockedTitles := rfl

theorem lifecycle_depth (time d2 v2 : ℚ) (s1 : AppState) :
    (lifecycle time d2 v2 s1).depth = if d2 ≤ 0 then 0 else d2 := by
  by_cases hd : d2 ≤ 0 <;> cases h : s1.runStartTime <;>
    simp only [lifecycle, if_pos, if_neg, hd, h, if_true, if_false, ite_true, ite_false]

theorem lifecycle_velocity (time d2 v2 : ℚ) (s1 : AppState) :
    (lifecycle time d2 v2 s1).velocity = if d2 ≤ 0 then 0 else v2 := by
  by_cases hd : d2 ≤ 0 <;> cases h : s1.runStartTime <;>
    simp only [lifecycle, if_pos, if_neg, hd, h, if_true, if_false, ite_true, ite_false]

theorem lifecycle_unlockedTitles (time d2 v2 : ℚ) (s1 : AppState) :
    (lifecycle time d2 v2 s1).unlockedTitles = s1.unlockedTitles := by
  by_cases hd : d2 ≤ 0 <;> cases h : s1.runStartTime <;>
    simp only [lifecycle, if_pos, if_neg, hd, h, if_true, if_false, ite_true, ite_false]

theorem animate_depth (b : Bool) (c t : ℚ) (s : AppState) :
    (animate b c t s).depth =
      if (physicsOut b t s).1 ≤ 0 then 0 else (physicsOut b t s).1 := by
  rw [animate, statsSection_depth, runSection_fst_depth, midState, lifecycle_depth]

theorem animate_velocity (b : Bool) (c t : ℚ) (s : AppState) :
    (animate b c t s).velocity =
      if (physicsOut b t s).1 ≤ 0 then 0 else (physicsOut b t s).2 := by
  rw [animate, statsSection_velocity, runSection_fst_velocity, midState, lifecycle_velocity]

theorem runSection_fst_maxSpeed (c t : ℚ) (m : AppState) :
    (runSection c t m).1.maxSpeed = m.maxSpeed := by
  cases h : m.runStartTime with
  | none => rw [runSection_none c t m h]
  | some t0 => rw [runSection_some c t t0 m h]

theorem runSection_fst_maxAccel (c t : ℚ) (m : AppState) :
    (runSection c t m).1.maxAccel = m.maxAccel := by
  cases h : m.runStartTime with
  | none => rw [runSection_none c t m h]
  | some t0 => rw [runSection_some c t t0 m h]

theorem animate_runStartTime (b : Bool) (c t : ℚ) (s : AppState) :
    (animate b c t s).runStartTime =
      if (physicsOut b t s).1 ≤ 0 then none else some (s.runStartTime.getD t) := by
  rw [animate, statsSection_runStartTime, runSection_fst_runStartTime, midState]
  by_cases hd : (physicsOut b t s).1 ≤ 0
  · rw [if_pos hd]
    cases h : s.runStartTime with
    | none =>
      rw [lifecycle_ground_idle _ _ _ _ hd (by rw [phase1_runStartTime, h]),
        phase1_runStartTime, h]
    | some t0 =>
      rw [lifecycle_ground_reset _ _ _ t0 _ hd (by rw [phase1_runStartTime, h])]
  · rw [if_neg hd]
    cases h : s.runStartTime with
    | none =>
      rw [lifecycle_start _ _ _ _ hd (by rw [phase1_runStartTime, h])]
      rfl
    | some t0 =>
      rw [lifecycle_cont _ _ _ t0 _ hd (by rw [phase1_runStartTime, h]),
        phase1_runStartTime, h]
      rfl

/-! ### C1 -/

/-- C1: after every tick of the animate step, in both inertia modes, for every
pending input delta and every frame timestamp (hence every dt), the resulting
depth is nonnegative; and whenever the physics phase computes a depth at or
below 0, the tick clamps the depth to exactly 0 and simultaneously forces the
velocity to exactly 0. -/
theorem C1_depth_floor (b : Bool) (c t : ℚ) (s : AppState) :
    0 ≤ (animate b c t s).depth ∧
      ((physicsOut b t s).1 ≤ 0 →
        (animate b c t s).depth = 0 ∧ (animate b c t s).velocity = 0) := by
  constructor
  · rw [animate_depth]
    by_cases hd : (physicsOut b t s).1 ≤ 0
    · rw [if_pos hd]
    · rw [if_neg hd]
      exact (not_le.mp hd).le
  · intro hd
    rw [animate_depth, animate_velocity, if_pos hd, if_pos hd]
    exact ⟨rfl, rfl⟩

theorem C1_depth_floor_witness :
    (physicsOut true 16 zState).1 ≤ 0 ∧
      (animate true 1 16 zState).depth = 0 ∧ (animate true 1 16 zState).velocity = 0 := by
  have hd : (physicsOut true 16 zState).1 ≤ 0 := by
    norm_num [physicsOut, physicsStep, directDeltaOf, velocity0Of, idleMsOf,
      lastMoveTime1Of, jsAbs, zState, MOVING_EPS, IDLE_GRAVITY_DELAY_MS, FRICTION]
  exact ⟨hd, (C1_depth_floor true 1 16 zState).2 hd⟩

/-! ### C2 -/

theorem cexGround_physicsOut : physicsOut false 1000 cexGroundState = (0, -50) := by
  norm_num [physicsOut, physicsStep, directDeltaOf, velocity0Of, idleMsOf,
    lastMoveTime1Of, jsAbs, cexGroundState, MOVING_EPS, IDLE_GRAVITY_DELAY_MS]

/-- C2 (amended): at the end of a tick on which an active run grounds (the
post-tick depth is 0 while a start timestamp was present), the velocity is 0,
the run timer is cleared, the splits and passed-milestone sets are empty, and
`totalDistance` and `aveSpeed` are exactly 0 — but `maxSpeed`, `maxAccel` and
`currentSpeedMps` are re-written after the reset from this tick's sampled
speed and acceleration, so they equal those samples (clamped below by the
reset 0) rather than 0. -/
theorem C2_ground_reset (b : Bool) (c t t0 : ℚ) (s : AppState)
    (hrun : s.runStartTime = some t0) (hdep : (animate b c t s).depth = 0) :
    (animate b c t s).velocity = 0 ∧
    (animate b c t s).runStartTime = none ∧
    (animate b c t s).runTime = 0 ∧
    (animate b c t s).splits = [] ∧
    (animate b c t s).passedMilestones = [] ∧
    (animate b c t s).totalDistance = 0 ∧
    (animate b c t s).aveSpeed = 0 ∧
    (animate b c t s).scrollCount = 0 ∧
    (animate b c t s).currentSpeedMps = pxPerSecOf b t s * c / 100 ∧
    (animate b c t s).maxSpeed = max 0 (pxPerSecOf b t s * c / 100) ∧
    (animate b c t s).maxAccel = max 0 (accelValOf b t s * c / 100) := by
  have hd : (physicsOut b t s).1 ≤ 0 := by
    by_contra hd
    rw [animate_depth, if_neg hd] at hdep
    exact absurd hdep (ne_of_gt (not_le.mp hd))
  have hm : midState b t s =
      { phase1 b t s with
        depth := 0, velocity := 0, runStartTime := none, runTime := 0,
        splits := [], passedMilestones := [], totalDistance := 0, aveSpeed := 0,
        maxSpeed := 0, maxAccel := 0, currentSpeedMps := 0, scrollCount := 0,
        titleToast := none, lastMoveTime := none } := by
    rw [midState]
    exact lifecycle_ground_reset _ _ _ t0 _ hd (by rw [phase1_runStartTime, hrun])
  have hrs : (midState b t s).runStartTime = none := by rw [hm]
  rw [animate, runSection_none _ _ _ hrs, hm]
  simp [statsSection, jsAbs]

theorem C2_ground_reset_cex :
    cexGroundState.runStartTime = some 100 ∧
    (animate false 100 1000 cexGroundState).depth = 0 ∧
    (animate false 100 1000 cexGroundState).maxSpeed ≠ 0 := by
  have hd : (physicsOut false 1000 cexGroundState).1 ≤ 0 := by
    rw [cexGround_physicsOut]
  have hm : midState false 1000 cexGroundState =
      { phase1 false 1000 cexGroundState with
        depth := 0, velocity := 0, runStartTime := none, runTime := 0,
        splits := [], passedMilestones := [], totalDistance := 0, aveSpeed := 0,
        maxSpeed := 0, maxAccel := 0, currentSpeedMps := 0, scrollCount := 0,
        titleToast := none, lastMoveTime := none } := by
    rw [midState]
    exact lifecycle_ground_reset _ _ _ 100 _ hd (by rfl)
  have hrs : (midState false 1000 cexGroundState).runStartTime = none := by rw [hm]
  refine ⟨rfl, ?_, ?_⟩
  · rw [animate_depth, if_pos hd]
  · rw [animate, runSection_none _ _ _ hrs, hm]
    simp only [statsSection_maxSpeed]
    norm_num [pxPerSecOf, velocity0Of, jsAbs, dtSecOf, cexGroundState, max_def]

theorem C2_ground_reset_witness :
    (animate false 100 1000 cexGroundState).velocity = 0 ∧
    (animate false 100 1000 cexGroundState).splits = [] ∧
    (animate false 100 1000 cexGroundState).totalDistance = 0 := by
  have hdep : (animate false 100 1000 cexGroundState).depth = 0 := by
    rw [animate_depth, cexGround_physicsOut]
    norm_num
  have h := C2_ground_reset false 100 1000 100 cexGroundState rfl hdep
  exact ⟨h.1, h.2.2.2.1, h.2.2.2.2.2.1⟩

/-! ### C6 -/

/-- C6 (amended): after every tick, `aveSpeed` equals
`totalDistance / (runTime/1000)` whenever a run is active with a nonzero
(JS-truthy) start timestamp and positive elapsed run time; it equals exactly 0
(never an undefined quotient) when no run is active, when the elapsed run
time is 0, and also in the degenerate case of a run whose start timestamp is
exactly 0, which the JS-truthiness guard treats as inactive. -/
theorem C6_average_speed (b : Bool) (c t : ℚ) (s : AppState) :
    (∀ t0, (animate b c t s).runStartTime = some t0 → t0 ≠ 0 →
      0 < (animate b c t s).runTime →
      (animate b c t s).aveSpeed =
        (animate b c t s).totalDistance / ((animate b c t s).runTime / 1000)) ∧
    ((animate b c t s).runStartTime = none → (animate b c t s).aveSpeed = 0) ∧
    ((animate b c t s).runTime = 0 → (animate b c t s).aveSpeed = 0) ∧
    ((animate b c t s).runStartTime = some 0 → (animate b c t s).aveSpeed = 0) := by
  have key : (animate b c t s).runStartTime = (midState b t s).runStartTime := by
    rw [animate, statsSection_runStartTime, runSection_fst_runStartTime]
  cases hm : (midState b t s).runStartTime with
  | none =>
    have hz : (animate b c t s).aveSpeed = 0 := by
      rw [animate, runSection_none _ _ _ hm]
      exact statsSection_aveSpeed_none _ _ _ _ _ hm
    refine ⟨fun t0 hsome _ _ => ?_, fun _ => hz, fun _ => hz, fun _ => hz⟩
    rw [key, hm] at hsome
    exact absurd hsome (by simp)
  | some t0 =>
    have hsp := runSection_some c t t0 (midState b t s) hm
    have hR : (runSection c t (midState b t s)).1.runStartTime = some t0 := by
      rw [hsp]
      exact hm
    have hRT : (animate b c t s).runTime = t - t0 := by
      rw [animate, statsSection_runTime, hsp]
    have hTD : (animate b c t s).totalDistance =
        (runSection c t (midState b t s)).1.totalDistance +
          jsAbs (runSection c t (midState b t s)).1.velocity * c / 100 := by
      rw [animate, statsSection_totalDistance]
    have hAS : (animate b c t s).aveSpeed =
        if t0 ≠ 0 ∧ 0 < t - t0 then
          ((runSection c t (midState b t s)).1.totalDistance +
            jsAbs (runSection c t (midState b t s)).1.velocity * c / 100) /
            ((t - t0) / 1000)
        else 0 := by
      conv_lhs => rw [animate]
      rw [statsSection_aveSpeed_some _ _ _ _ t0 _ hR, hsp]
    refine ⟨fun t1 hsome ht1 hrt => ?_, fun hnone => ?_, fun hrt0 => ?_, fun hzero => ?_⟩
    · rw [key, hm] at hsome
      have ht01 : t0 = t1 := by injection hsome
      subst ht01
      rw [hAS, if_pos ⟨ht1, by rw [hRT] at hrt; exact hrt⟩, hTD, hRT]
    · rw [key, hm] at hnone
      exact absurd hnone (by simp)
    · rw [hRT] at hrt0
      rw [hAS, if_neg (by rw [hrt0]; exact fun hc => lt_irrefl 0 hc.2)]
    · rw [key, hm] at hzero
      have ht00 : t0 = 0 := by injection hzero
      rw [hAS, if_neg (by rw [ht00]; exact fun hc => hc.1 rfl)]

theorem cexZeroStart_physicsOut : physicsOut true 1000 cexZeroStartState = (1096, 96) := by
  norm_num [physicsOut, physicsStep, directDeltaOf, velocity0Of, isMovingOf, idleMsOf,
    lastMoveTime1Of, jsAbs, cexZeroStartState, MOVING_EPS, IDLE_GRAVITY_DELAY_MS, FRICTION]

theorem C6_average_speed_cex :
    (animate true (1/40) 1000 cexZeroStartState).runStartTime = some 0 ∧
    (animate true (1/40) 1000 cexZeroStartState).runTime = 1000 ∧
    (animate true (1/40) 1000 cexZeroStartState).totalDistance = 628 / 125 ∧
    (animate true (1/40) 1000 cexZeroStartState).aveSpeed = 0 ∧
    (animate true (1/40) 1000 cexZeroStartState).aveSpeed ≠
      (animate true (1/40) 1000 cexZeroStartState).totalDistance /
        ((animate true (1/40) 1000 cexZeroStartState).runTime / 1000) := by
  have hd : ¬(physicsOut true 1000 cexZeroStartState).1 ≤ 0 := by
    rw [cexZeroStart_physicsOut]
    norm_num
  have hm : midState true 1000 cexZeroStartState =
      { phase1 true 1000 cexZeroStartState with
        depth := (physicsOut true 1000 cexZeroStartState).1
        velocity := (physicsOut true 1000 cexZeroStartState).2 } := by
    rw [midState]
    exact lifecycle_cont _ _ _ 0 _ hd (by rfl)
  have hmrs : (midState true 1000 cexZeroStartState).runStartTime = some 0 := by
    rw [hm]
    rfl
  have hsp := runSection_some (1/40) 1000 0 (midState true 1000 cexZeroStartState) hmrs
  have hrst : (animate true (1/40) 1000 cexZeroStartState).runStartTime = some 0 := by
    rw [animate, statsSection_runStartTime, hsp]
    rw [hmrs]
  have hrt : (animate true (1/40) 1000 cexZeroStartState).runTime = 1000 := by
    rw [animate, statsSection_runTime, hsp]
    norm_num
  have htd : (animate true (1/40) 1000 cexZeroStartState).totalDistance = 628 / 125 := by
    rw [animate, statsSection_totalDistance, hsp]
    have hv : (midState true 1000 cexZeroStartState).velocity = 96 := by
      rw [hm, cexZeroStart_physicsOut]
    have ht : (midState true 1000 cexZeroStartState).totalDistance = 5 := by
      rw [hm]
      rfl
    dsimp only
    rw [hv, ht]
    norm_num [jsAbs]
  have has : (animate true (1/40) 1000 cexZeroStartState).aveSpeed = 0 := by
    have hR : (runSection (1/40) 1000 (midState true 1000 cexZeroStartState)).1.runStartTime
        = some 0 := by
      rw [hsp]
      exact hmrs
    conv_lhs => rw [animate]
    rw [statsSection_aveSpeed_some _ _ _ _ 0 _ hR]
    rw [if_neg (fun hc => hc.1 rfl)]
  refine ⟨hrst, hrt, htd, has, ?_⟩
  rw [has, htd, hrt]
  norm_num

theorem witAve_physicsOut : physicsOut true 1000 witAveState = (1096, 96) := by
  norm_num [physicsOut, physicsStep, directDeltaOf, velocity0Of, isMovingOf, idleMsOf,
    lastMoveTime1Of, jsAbs, witAveState, MOVING_EPS, IDLE_GRAVITY_DELAY_MS, FRICTION]

theorem C6_average_speed_witness :
    (animate true (1/40) 1000 witAveState).aveSpeed =
      (animate true (1/40) 1000 witAveState).totalDistance /
        ((animate true (1/40) 1000 witAveState).runTime / 1000) := by
  have hd : ¬(physicsOut true 1000 witAveState).1 ≤ 0 := by
    rw [witAve_physicsOut]
    norm_num
  have hrst : (animate true (1/40) 1000 witAveState).runStartTime = some 100 := by
    rw [animate_runStartTime, if_neg hd]
    rfl
  have hm : midState true 1000 witAveState =
      { phase1 true 1000 witAveState with
        depth := (physicsOut true 1000 witAveState).1
        velocity := (physicsOut true 1000 witAveState).2 } := by
    rw [midState]
    exact lifecycle_cont _ _ _ 100 _ hd (by rfl)
  have hmrs : (midState true 1000 witAveState).runStartTime = some 100 := by
    rw [hm]
    rfl
  have hrt : (animate true (1/40) 1000 witAveState).runTime = 900 := by
    rw [animate, statsSection_runTime,
      runSection_some (1/40) 1000 100 (midState true 1000 witAveState) hmrs]
    norm_num
  exact (C6_average_speed true (1/40) 1000 witAveState).1 100 hrst (by norm_num)
    (by rw [hrt]; norm_num)

/-! ### C7 -/

theorem animate_inertia_velocity (c t : ℚ) (s : AppState)
    (hpos : 0 < (animate true c t s).depth) :
    (animate true c t s).velocity = s.velocity * FRICTION := by
  have hd : ¬(physicsOut true t s).1 ≤ 0 := by
    intro hle
    rw [animate_depth, if_pos hle] at hpos
    exact lt_irrefl 0 hpos
  rw [animate_velocity, if_neg hd, physicsOut, physicsStep]
  simp [velocity0Of]

/-- C7: with inertia enabled and no input events between ticks (the inertia
branch never reads the pending input delta), as long as the depth stays
strictly positive after every tick — so the floor clamp never fires — the
velocity after `n` ticks is exactly `V0 * FRICTION ^ n`, for every timestamp
sequence and hence independently of the per-tick dt values.  (Exact in `ℚ`;
the float implementation matches to within rounding.) -/
theorem C7_friction_decay (c : ℚ) (times : List ℚ) (s : AppState)
    (h : depthStaysPos true c times s) :
    (iterAnimate true c times s).velocity = s.velocity * FRICTION ^ times.length := by
  induction times generalizing s with
  | nil =>
    simp only [iterAnimate, List.length_nil, pow_zero, mul_one]
  | cons t ts ih =>
    simp only [depthStaysPos] at h
    obtain ⟨h1, h2⟩ := h
    rw [iterAnimate, ih (animate true c t s) h2, animate_inertia_velocity c t s h1,
      List.length_cons, pow_succ]
    ring

theorem witFriction_physicsOut : physicsOut true 16 witFrictionState = (1000096, 96) := by
  norm_num [physicsOut, physicsStep, directDeltaOf, velocity0Of, isMovingOf, idleMsOf,
    lastMoveTime1Of, jsAbs, witFrictionState, MOVING_EPS, IDLE_GRAVITY_DELAY_MS, FRICTION]

theorem C7_friction_decay_witness :
    depthStaysPos true (1 / 1000000) [16] witFrictionState ∧
    (iterAnimate true (1 / 1000000) [16] witFrictionState).velocity =
      witFrictionState.velocity * FRICTION ^ 1 := by
  have hdep : 0 < (animate true (1 / 1000000) 16 witFrictionState).depth := by
    rw [animate_depth, witFriction_physicsOut]
    norm_num
  have h : depthStaysPos true (1 / 1000000) [16] witFrictionState := by
    simp only [depthStaysPos]
    exact ⟨hdep, trivial⟩
  exact ⟨h, C7_friction_decay (1 / 1000000) [16] witFrictionState h⟩

/-! ### C4 -/

theorem milestonesCM_nodup : MILESTONES_CM.Nodup := by
  norm_num [MILESTONES_CM, List.nodup_cons, List.mem_cons]

theorem milestonesCM_sorted : List.Pairwise (· < ·) MILESTONES_CM := by
  norm_num [MILESTONES_CM, List.pairwise_cons, List.mem_cons]

theorem milestoneFoldStep_pos (cm rt : ℚ) (p : List ℚ) (sp : List SplitRecord) (a : ℚ)
    (hc : a ≤ cm ∧ a ∉ p) :
    milestoneFoldStep cm rt (p, sp) a = (p ++ [a], sortSplitsDesc (sp ++ [⟨a, rt⟩])) := by
  rw [milestoneFoldStep, if_pos hc]

theorem milestoneFoldStep_neg (cm rt : ℚ) (p : List ℚ) (sp : List SplitRecord) (a : ℚ)
    (hc : ¬(a ≤ cm ∧ a ∉ p)) : milestoneFoldStep cm rt (p, sp) a = (p, sp) := by
  rw [milestoneFoldStep, if_neg hc]

theorem milestoneFold_passed (cm rt : ℚ) :
    ∀ (l : List ℚ), l.Nodup → ∀ (p : List ℚ) (sp : List SplitRecord),
      (l.foldl (milestoneFoldStep cm rt) (p, sp)).1 =
        p ++ l.filter (fun m => decide (m ≤ cm ∧ m ∉ p)) := by
  intro l
  induction l with
  | nil =>
    intro _ p sp
    simp
  | cons a l ih =>
    intro hl p sp
    have hnd := List.nodup_cons.mp hl
    rw [List.foldl_cons, List.filter_cons]
    by_cases hc : a ≤ cm ∧ a ∉ p
    · rw [milestoneFoldStep_pos cm rt p sp a hc, ih hnd.2 (p ++ [a]) _]
      have hfc : l.filter (fun m => decide (m ≤ cm ∧ m ∉ p ++ [a])) =
          l.filter (fun m => decide (m ≤ cm ∧ m ∉ p)) := by
        apply List.filter_congr
        intro x hx
        apply decide_eq_decide.mpr
        constructor
        · intro hx2
          exact ⟨hx2.1, fun hp => hx2.2 (List.mem_append_left _ hp)⟩
        · intro hx2
          refine ⟨hx2.1, fun hp => ?_⟩
          rcases List.mem_append.mp hp with hp1 | hp2
          · exact hx2.2 hp1
          · exact hnd.1 (by rwa [List.mem_singleton.mp hp2] at hx)
      rw [hfc, if_pos (decide_eq_true hc)]
      simp [List.append_assoc]
    · rw [milestoneFoldStep_neg cm rt p sp a hc, ih hnd.2 p sp,
        if_neg (by rw [decide_eq_false hc]; exact Bool.false_ne_true)]

theorem milestoneStep_passed (cm rt : ℚ) (p : List ℚ) (sp : List SplitRecord) :
    (milestoneStep cm rt p sp).1 = p ++ milestonesFired cm p :=
  milestoneFold_passed cm rt MILESTONES_CM milestonesCM_nodup p sp

theorem milestoneFold_splits_pres (cm rt : ℚ) :
    ∀ (l : List ℚ) (p : List ℚ) (sp : List SplitRecord) (x : SplitRecord),
      x ∈ sp → x ∈ (l.foldl (milestoneFoldStep cm rt) (p, sp)).2 := by
  intro l
  induction l with
  | nil =>
    intro p sp x hx
    simpa using hx
  | cons a l ih =>
    intro p sp x hx
    rw [List.foldl_cons]
    by_cases hc : a ≤ cm ∧ a ∉ p
    · rw [milestoneFoldStep_pos cm rt p sp a hc]
      exact ih _ _ x ((List.mem_insertionSort _).mpr (List.mem_append_left _ hx))
    · rw [milestoneFoldStep_neg cm rt p sp a hc]
      exact ih p sp x hx

theorem milestoneFold_splits_new (cm rt : ℚ) :
    ∀ (l : List ℚ) (p : List ℚ) (sp : List SplitRecord) (m : ℚ),
      m ∈ l → m ≤ cm → m ∉ p →
      (⟨m, rt⟩ : SplitRecord) ∈ (l.foldl (milestoneFoldStep cm rt) (p, sp)).2 := by
  intro l
  induction l with
  | nil =>
    intro p sp m hm _ _
    exact absurd hm (List.not_mem_nil m)
  | cons a l ih =>
    intro p sp m hm hle hnp
    rw [List.foldl_cons]
    by_cases hma : m = a
    · subst hma
      rw [milestoneFoldStep_pos cm rt p sp m ⟨hle, hnp⟩]
      exact milestoneFold_splits_pres cm rt l _ _ _
        ((List.mem_insertionSort _).mpr (List.mem_append_right _ (List.mem_singleton_self _)))
    · have hml : m ∈ l := (List.mem_cons.mp hm).resolve_left hma
      by_cases hc : a ≤ cm ∧ a ∉ p
      · rw [milestoneFoldStep_pos cm rt p sp a hc]
        refine ih _ _ m hml hle fun hmem => ?_
        rcases List.mem_append.mp hmem with h1 | h2
        · exact hnp h1
        · exact hma (List.mem_singleton.mp h2)
      · rw [milestoneFoldStep_neg cm rt p sp a hc]
        exact ih p sp m hml hle hnp

theorem milestoneFold_splits_perm (cm rt : ℚ) :
    ∀ (l : List ℚ), l.Nodup → ∀ (p : List ℚ) (sp : List SplitRecord),
      ((l.foldl (milestoneFoldStep cm rt) (p, sp)).2).Perm
        (sp ++ (l.filter (fun m => decide (m ≤ cm ∧ m ∉ p))).map
          (fun m => (⟨m, rt⟩ : SplitRecord))) := by
  intro l
  induction l with
  | nil =>
    intro _ p sp
    simp
  | cons a l ih =>
    intro hl p sp
    have hnd := List.nodup_cons.mp hl
    rw [List.foldl_cons, List.filter_cons]
    by_cases hc : a ≤ cm ∧ a ∉ p
    · rw [milestoneFoldStep_pos cm rt p sp a hc, if_pos (decide_eq_true hc)]
      have hfc : l.filter (fun m => decide (m ≤ cm ∧ m ∉ p ++ [a])) =
          l.filter (fun m => decide (m ≤ cm ∧ m ∉ p)) := by
        apply List.filter_congr
        intro x hx
        apply decide_eq_decide.mpr
        constructor
        · intro hx2
          exact ⟨hx2.1, fun hp => hx2.2 (List.mem_append_left _ hp)⟩
        · intro hx2
          refine ⟨hx2.1, fun hp => ?_⟩
          rcases List.mem_append.mp hp with hp1 | hp2
          · exact hx2.2 hp1
          · exact hnd.1 (by rwa [List.mem_singleton.mp hp2] at hx)
      have h1 := ih hnd.2 (p ++ [a]) (sortSplitsDesc (sp ++ [⟨a, rt⟩]))
      rw [hfc] at h1
      refine h1.trans ?_
      have h2 : (sortSplitsDesc (sp ++ [⟨a, rt⟩])).Perm (sp ++ [⟨a, rt⟩]) :=
        List.perm_insertionSort _ _
      refine (h2.append_right _).trans ?_
      rw [List.append_assoc, List.singleton_append, List.map_cons]
    · rw [milestoneFoldStep_neg cm rt p sp a hc,
        if_neg (by rw [decide_eq_false hc]; exact Bool.false_ne_true)]
      exact ih hnd.2 p sp

theorem milestonesFired_1200 : milestonesFired 1200 [] = [100, 500, 1000] := by
  norm_num [milestonesFired, MILESTONES_CM, List.filter_cons, List.filter_nil,
    decide_eq_true_eq]

theorem milestonesFired_120 : milestonesFired 120 [] = [100] := by
  norm_num [milestonesFired, MILESTONES_CM, List.filter_cons, List.filter_nil,
    decide_eq_true_eq]

/-- C4: on a tick with converted distance `cm`, the milestone pass appends to
the passed set exactly the not-yet-recorded thresholds at or below `cm`
(`milestonesFired`, evaluated in the ascending source order), records a split
`{threshold, currentRunTime}` for each of them — and nothing else — in that
same pass (the stored list is a permutation, by the descending display
re-sort, of the old splits plus exactly the fired splits), fires each
threshold at most once per run (already-passed thresholds never re-fire and
the passed set stays duplicate-free), and the active branch of the tick
invokes exactly this pass on the converted depth and elapsed run time.
Concretely, a tick reaching 1200 cm from a fresh run fires 100, 500, 1000 in
that order, and one reaching 120 cm fires only 100. -/
theorem C4_milestones (cm rt c t : ℚ) (p : List ℚ) (sp : List SplitRecord) :
    (milestoneStep cm rt p sp).1 = p ++ milestonesFired cm p ∧
    List.Pairwise (· < ·) (milestonesFired cm p) ∧
    (∀ m ∈ milestonesFired cm p, (⟨m, rt⟩ : SplitRecord) ∈ (milestoneStep cm rt p sp).2) ∧
    ((milestoneStep cm rt p sp).2).Perm
      (sp ++ (milestonesFired cm p).map (fun m => (⟨m, rt⟩ : SplitRecord))) ∧
    (∀ m ∈ p, m ∉ milestonesFired cm p) ∧
    (p.Nodup → (milestoneStep cm rt p sp).1.Nodup) ∧
    (∀ (st : AppState) (t0 : ℚ), st.runStartTime = some t0 →
      (runSection c t st).1.passedMilestones =
        (milestoneStep (st.depth * c) (t - t0) st.passedMilestones st.splits).1 ∧
      (runSection c t st).1.splits =
        (milestoneStep (st.depth * c) (t - t0) st.passedMilestones st.splits).2) ∧
    milestonesFired 1200 [] = [100, 500, 1000] ∧
    milestonesFired 120 [] = [100] := by
  have hmem : ∀ m ∈ milestonesFired cm p, m ∈ MILESTONES_CM ∧ m ≤ cm ∧ m ∉ p := by
    intro m hm
    rw [milestonesFired] at hm
    have := List.mem_filter.mp hm
    exact ⟨this.1, of_decide_eq_true this.2⟩
  refine ⟨milestoneStep_passed cm rt p sp, milestonesCM_sorted.filter _, ?_,
    milestoneFold_splits_perm cm rt MILESTONES_CM milestonesCM_nodup p sp, ?_, ?_, ?_,
    milestonesFired_1200, milestonesFired_120⟩
  · intro m hm
    obtain ⟨h1, h2, h3⟩ := hmem m hm
    exact milestoneFold_splits_new cm rt MILESTONES_CM p sp m h1 h2 h3
  · intro m hp hf
    exact (hmem m hf).2.2 hp
  · intro hp
    rw [milestoneStep_passed cm rt p sp]
    refine List.nodup_append.mpr ⟨hp, milestonesCM_nodup.filter _, ?_⟩
    intro a ha haf
    exact (hmem a haf).2.2 ha
  · intro st t0 h
    rw [runSection_some c t t0 st h]
    exact ⟨rfl, rfl⟩

theorem C4_milestones_witness :
    (⟨100, 42⟩ : SplitRecord) ∈ (milestoneStep 1200 42 ([] : List ℚ) []).2 ∧
    (milestoneStep 1200 42 ([] : List ℚ) []).1.Nodup := by
  have h := C4_milestones 1200 42 1 0 [] []
  refine ⟨h.2.2.1 100 ?_, h.2.2.2.2.2.1 (by simp)⟩
  rw [h.2.2.2.2.2.2.2.1]
  simp

/-! ### C5 -/

theorem unlockFold_chars (d : ℚ) :
    ∀ (l : List Achievement) (acc : List String × List (String × String)),
      ∃ new : List (String × String),
        (l.foldl (unlockStep d) acc).1 = acc.1 ++ new.map Prod.fst ∧
        (l.foldl (unlockStep d) acc).2 = acc.2 ++ new ∧
        (∀ e ∈ new, e.1 ∉ acc.1) := by
  intro l
  induction l with
  | nil =>
    intro acc
    exact ⟨[], by simp, by simp, by simp⟩
  | cons a l ih =>
    intro acc
    rw [List.foldl_cons]
    by_cases hf : a.meters ≤ d
    · by_cases hk : a.key ∈ acc.1
      · have hstep : unlockStep d acc a = acc := by
          rw [unlockStep, if_pos hf, unlockOnce, if_pos hk]
        rw [hstep]
        exact ih acc
      · have hstep : unlockStep d acc a =
            (acc.1 ++ [a.key], acc.2 ++ [(a.key, a.label)]) := by
          rw [unlockStep, if_pos hf, unlockOnce, if_neg hk]
        rw [hstep]
        obtain ⟨new, h1, h2, h3⟩ := ih (acc.1 ++ [a.key], acc.2 ++ [(a.key, a.label)])
        refine ⟨(a.key, a.label) :: new, ?_, ?_, ?_⟩
        · rw [h1]
          simp [List.append_assoc]
        · rw [h2]
          simp [List.append_assoc]
        · intro e he
          rcases List.mem_cons.mp he with he1 | he2
          · rw [he1]
            exact hk
          · intro hmem
            exact h3 e he2 (List.mem_append_left _ hmem)
    · have hstep : unlockStep d acc a = acc := by
        rw [unlockStep, if_neg hf]
      rw [hstep]
      exact ih acc

theorem unlockFold_nodup (d : ℚ) :
    ∀ (l : List Achievement) (acc : List String × List (String × String)),
      acc.1.Nodup → (l.foldl (unlockStep d) acc).1.Nodup := by
  intro l
  induction l with
  | nil =>
    intro acc h
    exact h
  | cons a l ih =>
    intro acc h
    rw [List.foldl_cons]
    by_cases hf : a.meters ≤ d
    · by_cases hk : a.key ∈ acc.1
      · rw [show unlockStep d acc a = acc from by
          rw [unlockStep, if_pos hf, unlockOnce, if_pos hk]]
        exact ih acc h
      · rw [show unlockStep d acc a = (acc.1 ++ [a.key], acc.2 ++ [(a.key, a.label)]) from by
          rw [unlockStep, if_pos hf, unlockOnce, if_neg hk]]
        refine ih _ ?_
        rw [show acc.1 ++ [a.key] = acc.1.concat a.key from (List.concat_eq_append _ _).symm]
        exact List.Nodup.concat hk h
    · rw [show unlockStep d acc a = acc from by rw [unlockStep, if_neg hf]]
      exact ih acc h

theorem unlockFold_covers (d : ℚ) :
    ∀ (l : List Achievement) (acc : List String × List (String × String)) (a : Achievement),
      a ∈ l → a.meters ≤ d → a.key ∈ (l.foldl (unlockStep d) acc).1 := by
  intro l
  induction l with
  | nil =>
    intro acc a ha
    exact absurd ha (List.not_mem_nil a)
  | cons b l ih =>
    intro acc a ha hle
    rw [List.foldl_cons]
    by_cases hab : a = b
    · subst hab
      by_cases hk : a.key ∈ acc.1
      · rw [show unlockStep d acc a = acc from by
          rw [unlockStep, if_pos hle, unlockOnce, if_pos hk]]
        exact unlockFold_mono d l acc hk
      · rw [show unlockStep d acc a = (acc.1 ++ [a.key], acc.2 ++ [(a.key, a.label)]) from by
          rw [unlockStep, if_pos hle, unlockOnce, if_neg hk]]
        exact unlockFold_mono d l _
          (List.mem_append_right _ (List.mem_singleton_self _))
    · have hal : a ∈ l := (List.mem_cons.mp ha).resolve_left hab
      exact ih (unlockStep d acc b) a hal hle

theorem unlockFold_noop (d : ℚ) :
    ∀ (l : List Achievement) (acc : List String × List (String × String)),
      (∀ a ∈ l, a.meters ≤ d → a.key ∈ acc.1) → l.foldl (unlockStep d) acc = acc := by
  intro l
  induction l with
  | nil =>
    intro acc _
    rfl
  | cons a l ih =>
    intro acc hcov
    rw [List.foldl_cons]
    have hstep : unlockStep d acc a = acc := by
      rw [unlockStep]
      by_cases hf : a.meters ≤ d
      · rw [if_pos hf, unlockOnce, if_pos (hcov a (List.mem_cons_self a l) hf)]
      · rw [if_neg hf]
    rw [hstep]
    exact ih acc fun b hb => hcov b (List.mem_cons_of_mem a hb)

theorem animate_unlocked_mono (b : Bool) (c t : ℚ) (s : AppState) :
    s.unlockedTitles ⊆ (animate b c t s).unlockedTitles := by
  have hmid : (midState b t s).unlockedTitles = s.unlockedTitles := by
    rw [midState, lifecycle_unlockedTitles, phase1_unlockedTitles]
  intro x hx
  rw [animate, statsSection_unlockedTitles]
  exact runSection_fst_unlockedTitles_mono c t _ x (by rw [hmid]; exact hx)

/-- C5: achievement unlocking is idempotent and the unlocked set is monotone.
For every distance evaluation: the set only grows; the resulting set is the
old set plus exactly the newly unlocked keys, each of which is persisted and
notified by exactly one event; an already-unlocked key produces no event (so
it is never re-added, re-persisted or re-notified); a duplicate-free set
stays duplicate-free; re-evaluating the same distance on the updated set is a
complete no-op with no events; and no tick of the animate step (in particular
not the grounding ACTIVE-to-GROUNDED transition) removes a key from the
unlocked-title set. -/
theorem C5_unlock_idempotent :
    (∀ (d : ℚ) (set1 : List String), set1 ⊆ (checkTitleUnlocks d set1).1) ∧
    (∀ (d : ℚ) (set1 : List String),
      (checkTitleUnlocks d set1).1 = set1 ++ (checkTitleUnlocks d set1).2.map Prod.fst) ∧
    (∀ (d : ℚ) (set1 : List String) (e : String × String),
      e ∈ (checkTitleUnlocks d set1).2 → e.1 ∉ set1) ∧
    (∀ (d : ℚ) (set1 : List String), set1.Nodup → (checkTitleUnlocks d set1).1.Nodup) ∧
    (∀ (d : ℚ) (set1 : List String),
      checkTitleUnlocks d (checkTitleUnlocks d set1).1 = ((checkTitleUnlocks d set1).1, [])) ∧
    (∀ (b : Bool) (c t : ℚ) (s : AppState),
      s.unlockedTitles ⊆ (animate b c t s).unlockedTitles) := by
  have hchars : ∀ (d : ℚ) (set1 : List String),
      (checkTitleUnlocks d set1).1 = set1 ++ (checkTitleUnlocks d set1).2.map Prod.fst ∧
      (∀ e ∈ (checkTitleUnlocks d set1).2, e.1 ∉ set1) := by
    intro d set1
    obtain ⟨new, h1, h2, h3⟩ := unlockFold_chars d ACHIEVEMENTS (set1, [])
    have hdef : checkTitleUnlocks d set1 = ACHIEVEMENTS.foldl (unlockStep d) (set1, []) := rfl
    constructor
    · rw [hdef, h1, h2]
      simp
    · intro e he
      rw [hdef, h2] at he
      simp only [List.nil_append] at he
      exact h3 e he
  refine ⟨fun d set1 => checkTitleUnlocks_mono d set1, fun d set1 => (hchars d set1).1,
    fun d set1 e he => (hchars d set1).2 e he,
    fun d set1 h => unlockFold_nodup d ACHIEVEMENTS (set1, []) h, ?_, animate_unlocked_mono⟩
  intro d set1
  have hcov : ∀ a ∈ ACHIEVEMENTS, a.meters ≤ d → a.key ∈ (checkTitleUnlocks d set1).1 :=
    fun a ha hle => unlockFold_covers d ACHIEVEMENTS (set1, []) a ha hle
  exact unlockFold_noop d ACHIEVEMENTS ((checkTitleUnlocks d set1).1, []) hcov

theorem C5_unlock_idempotent_witness :
    (["77.7"] : List String).Nodup ∧ (checkTitleUnlocks 100 ["77.7"]).1.Nodup := by
  have h : (["77.7"] : List String).Nodup := by simp
  exact ⟨h, C5_unlock_idempotent.2.2.2.1 100 ["77.7"] h⟩

/-! ### C3 -/

/-- C3: a persisted snapshot with positive depth only arms the binary
resume/discard prompt at startup, leaving the simulation state untouched (no
automatic resume); choosing resume rehydrates depth, velocity and splits
verbatim from the snapshot, sets the run start time to `now` minus the
snapshot's elapsed run time (so the timer continues from that elapsed time),
and primes the idle timer as just-moved; choosing discard deletes the stored
snapshot, dismisses the prompt and leaves the (grounded) simulation state
untouched. -/
theorem C3_resume (sh : AppShell) (p : PersistedRunState) (now : ℚ) (s : AppState) :
    (sh.stored = some p → 0 < p.depth →
      (startupLoad sh).pendingResume = some p ∧ (startupLoad sh).run = sh.run ∧
      (startupLoad sh).stored = sh.stored) ∧
    (0 < p.depth → 0 ≤ p.runTime →
      (handleResumeRun now p s).depth = p.depth ∧
      (handleResumeRun now p s).velocity = p.velocity ∧
      (handleResumeRun now p s).splits = p.splits ∧
      (handleResumeRun now p s).passedMilestones = p.passedMilestones ∧
      (handleResumeRun now p s).runStartTime = some (now - p.runTime) ∧
      (handleResumeRun now p s).runTime = p.runTime ∧
      (handleResumeRun now p s).lastMoveTime = some now) ∧
    ((handleStartFreshShell sh).run = sh.run ∧
      (handleStartFreshShell sh).pendingResume = none ∧
      (handleStartFreshShell sh).stored = none) ∧
    (sh.pendingResume = some p →
      (handleResumeRunShell now sh).run = handleResumeRun now p sh.run ∧
      (handleResumeRunShell now sh).pendingResume = none ∧
      (handleResumeRunShell now sh).stored = sh.stored) := by
  refine ⟨?_, ?_, ⟨rfl, rfl, rfl⟩, ?_⟩
  · intro hst hdp
    simp only [startupLoad, hst]
    rw [if_pos hdp]
    exact ⟨rfl, rfl, rfl⟩
  · intro hdp hrt
    have hmaxd : max 0 p.depth = p.depth := max_eq_right hdp.le
    have hmaxt : max 0 p.runTime = p.runTime := max_eq_right hrt
    rw [handleResumeRun]
    refine ⟨hmaxd, rfl, rfl, rfl, ?_, hmaxt, rfl⟩
    rw [hmaxt]
  · intro hp
    rw [handleResumeRunShell, hp]
    exact ⟨rfl, rfl, rfl⟩

theorem C3_resume_witness :
    (startupLoad witShell).pendingResume = some witSnapshot ∧
    (handleResumeRun 99999 witSnapshot zState).depth = witSnapshot.depth ∧
    (handleResumeRun 99999 witSnapshot zState).velocity = witSnapshot.velocity ∧
    (handleResumeRun 99999 witSnapshot zState).splits = witSnapshot.splits ∧
    (handleResumeRun 99999 witSnapshot zState).runStartTime =
      some (99999 - witSnapshot.runTime) ∧
    (handleResumeRun 99999 witSnapshot zState).runTime = witSnapshot.runTime ∧
    (handleResumeRun 99999 witSnapshot zState).lastMoveTime = some 99999 := by
  have hdp : (0 : ℚ) < witSnapshot.depth := by norm_num [witSnapshot]
  have hrt : (0 : ℚ) ≤ witSnapshot.runTime := by norm_num [witSnapshot]
  have h := C3_resume witShell witSnapshot 99999 zState
  obtain ⟨h2a, h2b, h2c, _, h2e, h2f, h2g⟩ := h.2.1 hdp hrt
  exact ⟨(h.1 rfl hdp).1, h2a, h2b, h2c, h2e, h2f, h2g⟩

/-! ### C8 -/

theorem handleConfirm_ruler (coin : CoinOption) (i sc : ℚ) :
    handleConfirm .ruler coin i sc = i * sc := by
  rw [handleConfirm, rulerLengthPx, RULER_CM]
  ring

theorem coins_diameter_ne (coin : CoinOption) (hm : coin ∈ COINS) : coin.diameterMm ≠ 0 := by
  simp only [COINS, List.mem_cons, List.not_mem_nil, or_false] at hm
  rcases hm with rfl | rfl | rfl | rfl | rfl | rfl <;> norm_num

theorem handleConfirm_coin (coin : CoinOption) (i sc : ℚ) (hm : coin ∈ COINS) :
    handleConfirm .coin coin i sc = i * sc := by
  have ha : coin.diameterMm / 10 ≠ 0 := div_ne_zero (coins_diameter_ne coin hm) (by norm_num)
  rw [handleConfirm, coinDiameterPx,
    show coin.diameterMm / 10 * i * sc = coin.diameterMm / 10 * (i * sc) from by ring,
    mul_div_cancel_left₀ _ ha]

theorem decScale_mem (sc : ℚ) (h2 : sc ≤ (1.8 : ℚ)) :
    (0.5 : ℚ) ≤ decScale sc ∧ decScale sc ≤ (1.8 : ℚ) := by
  refine ⟨le_max_left _ _, max_le (by norm_num) ?_⟩
  rw [roundTo3, round_eq]
  have hle : ((sc - 0.005) * 1000 + 1 / 2 : ℚ) ≤ (1795.5 : ℚ) := by linarith
  have hf : ⌊((sc - 0.005) * 1000 + 1 / 2 : ℚ)⌋ ≤ 1795 := by
    calc ⌊((sc - 0.005) * 1000 + 1 / 2 : ℚ)⌋ ≤ ⌊(1795.5 : ℚ)⌋ := Int.floor_mono hle
      _ = 1795 := by norm_num
  have hc : ((⌊((sc - 0.005) * 1000 + 1 / 2 : ℚ)⌋ : ℤ) : ℚ) ≤ 1795 := by exact_mod_cast hf
  rw [div_le_iff₀ (by norm_num : (0 : ℚ) < 1000)]
  linarith

theorem incScale_mem (sc : ℚ) (h1 : (0.5 : ℚ) ≤ sc) :
    (0.5 : ℚ) ≤ incScale sc ∧ incScale sc ≤ (1.8 : ℚ) := by
  refine ⟨le_min (by norm_num) ?_, min_le_left _ _⟩
  rw [roundTo3, round_eq]
  have hle : (505.5 : ℚ) ≤ ((sc + 0.005) * 1000 + 1 / 2 : ℚ) := by linarith
  have hf : (505 : ℤ) ≤ ⌊((sc + 0.005) * 1000 + 1 / 2 : ℚ)⌋ := by
    calc (505 : ℤ) = ⌊(505.5 : ℚ)⌋ := by norm_num
      _ ≤ ⌊((sc + 0.005) * 1000 + 1 / 2 : ℚ)⌋ := Int.floor_mono hle
  have hc : (505 : ℚ) ≤ ((⌊((sc + 0.005) * 1000 + 1 / 2 : ℚ)⌋ : ℤ) : ℚ) := by exact_mod_cast hf
  rw [le_div_iff₀ (by norm_num : (0 : ℚ) < 1000)]
  linarith

/-- C8: for every calibration confirm, in ruler mode and in coin mode (for
each of the configured coins), the confirmed px-per-cm factor equals the
displayed size divided by the known physical size, which is exactly the
supplied auto-estimate multiplied by the display scale `S`; the slider and
its step buttons confine `S` to `[0.5, 1.8]`; and the App-side confirm handler
replaces the previous calibrated factor with exactly the confirmed value, with
no averaging or compounding against the prior factor. -/
theorem C8_calibration_confirm (coin : CoinOption) (i sc v : ℚ) (cs : CalibState) :
    (coin ∈ COINS → handleConfirm .coin coin i sc = i * sc) ∧
    handleConfirm .ruler coin i sc = i * sc ∧
    rulerLengthPx i sc / RULER_CM = i * sc ∧
    (coin ∈ COINS → coinDiameterPx coin i sc / (coin.diameterMm / 10) = i * sc) ∧
    ((0.5 : ℚ) ≤ sc → sc ≤ (1.8 : ℚ) →
      (0.5 : ℚ) ≤ decScale sc ∧ decScale sc ≤ (1.8 : ℚ) ∧
      (0.5 : ℚ) ≤ incScale sc ∧ incScale sc ≤ (1.8 : ℚ)) ∧
    (handleCalibration v cs).calibratedPxPerCm = some v ∧
    (handleCalibration v cs).storedCalibration = some v := by
  refine ⟨fun hm => handleConfirm_coin coin i sc hm, handleConfirm_ruler coin i sc,
    handleConfirm_ruler coin i sc, fun hm => handleConfirm_coin coin i sc hm, ?_, rfl, rfl⟩
  intro h1 h2
  obtain ⟨hd1, hd2⟩ := decScale_mem sc h2
  obtain ⟨hi1, hi2⟩ := incScale_mem sc h1
  exact ⟨hd1, hd2, hi1, hi2⟩

theorem C8_calibration_confirm_witness :
    handleConfirm .coin ⟨"1円玉", 20.0⟩ 40 1 = 40 ∧
    (0.5 : ℚ) ≤ decScale 1 ∧ decScale 1 ≤ (1.8 : ℚ) := by
  have hm : (⟨"1円玉", 20.0⟩ : CoinOption) ∈ COINS := by
    simp [COINS]
  have h := C8_calibration_confirm ⟨"1円玉", 20.0⟩ 40 1 0 calibInit
  obtain ⟨hb1, hb2, _, _⟩ := h.2.2.2.2.1 (by norm_num) (by norm_num)
  refine ⟨?_, hb1, hb2⟩
  rw [h.1 hm]
  norm_num

/-! ### C9 -/

/-- C9 (amended): validity holds where the code actually guards — the startup
load of the persisted calibration rejects non-positive (and non-finite)
values, retaining the previous state, and the auto-probe only adopts positive
measurements; the confirm handler itself stores its argument unguarded, but
every value the calibration UI can hand it is the positive auto-estimate
times a scale of at least 0.5 and hence positive, so validity is preserved
along that path too; resetting reverts to the auto-estimate and removes the
persisted override; and in every valid state the factor behind
`pxToCm = 1/factor` is strictly positive, so the division is never by zero or
by a non-positive value. -/
theorem C9_calibration_validity (c0 : CalibState) (v w sc : ℚ) (coin : CoinOption)
    (mode : CalibMode) :
    (¬0 < v → loadCalibration v c0 = c0) ∧
    (0 < v → (loadCalibration v c0).calibratedPxPerCm = some v) ∧
    (calibValid c0 → calibValid (loadCalibration v c0)) ∧
    (calibValid c0 → calibValid (autoProbe w c0)) ∧
    (calibValid c0 → calibValid (handleResetCalibration c0)) ∧
    (calibValid c0 → coin ∈ COINS → (0.5 : ℚ) ≤ sc →
      calibValid (handleCalibration (handleConfirm mode coin c0.autoPxPerCm sc) c0)) ∧
    ((handleResetCalibration c0).calibratedPxPerCm = none ∧
      (handleResetCalibration c0).storedCalibration = none ∧
      pxToCm (handleResetCalibration c0) = 1 / c0.autoPxPerCm) ∧
    (calibValid c0 → 0 < pxToCmFactor c0) := by
  refine ⟨?_, ?_, ?_, ?_, ?_, ?_, ⟨rfl, rfl, rfl⟩, ?_⟩
  · intro hv
    rw [loadCalibration, if_neg hv]
  · intro hv
    rw [loadCalibration, if_pos hv]
  · intro hc
    rw [loadCalibration]
    by_cases hv : 0 < v
    · rw [if_pos hv]
      refine ⟨hc.1, ?_⟩
      intro x hx
      rw [Option.mem_def, Option.some.injEq] at hx
      exact hx ▸ hv
    · rwa [if_neg hv]
  · intro hc
    rw [autoProbe]
    by_cases hw : 0 < w
    · rw [if_pos hw]
      exact ⟨by positivity, hc.2⟩
    · rwa [if_neg hw]
  · intro hc
    refine ⟨hc.1, ?_⟩
    intro x hx
    simp [handleResetCalibration] at hx
  · intro hc hm hsc
    have hval : handleConfirm mode coin c0.autoPxPerCm sc = c0.autoPxPerCm * sc := by
      cases mode with
      | ruler => exact handleConfirm_ruler coin _ sc
      | coin => exact handleConfirm_coin coin _ sc hm
    refine ⟨hc.1, ?_⟩
    intro x hx
    rw [handleCalibration] at hx
    rw [Option.mem_def, Option.some.injEq] at hx
    rw [← hx, hval]
    have hsc0 : (0 : ℚ) < sc := lt_of_lt_of_le (by norm_num) hsc
    exact mul_pos hc.1 hsc0
  · intro hc
    rw [pxToCmFactor]
    cases hx : c0.calibratedPxPerCm with
    | none => exact hc.1
    | some x =>
      rw [Option.getD]
      exact hc.2 x (by rw [hx]; rfl)

theorem C9_calibration_validity_cex :
    (handleCalibration (-1) calibInit).calibratedPxPerCm = some (-1) ∧
    ¬(0 : ℚ) < -1 ∧
    (handleCalibration (-1) calibInit).calibratedPxPerCm ≠ calibInit.calibratedPxPerCm := by
  refine ⟨rfl, by norm_num, ?_⟩
  rw [handleCalibration]
  simp [calibInit]

theorem C9_calibration_validity_witness :
    loadCalibration (-5) calibInit = calibInit ∧ 0 < pxToCmFactor calibInit := by
  have h := C9_calibration_validity calibInit (-5) 0 1 ⟨"1円玉", 20.0⟩ .ruler
  have hvalid : calibValid calibInit := by
    constructor
    · norm_num [calibInit, DEFAULT_PX_PER_CM]
    · intro x hx
      simp [calibInit] at hx
  exact ⟨h.1 (by norm_num), h.2.2.2.2.2.2.2 hvalid⟩

/-! ### C10 -/

/-- C10: whenever any overlay is open — the title gallery, the calibration
overlay, or the pending resume prompt — every wheel, touch-start and
touch-move event is discarded before reaching the simulation: the handlers
return the input refs (velocity impulse target, pending input delta, touch
anchor) unchanged, so user input can neither start nor advance a run while a
resume decision or another overlay is pending. -/
theorem C10_overlay_blocks_input (g cal : Bool) (pr : Option PersistedRunState)
    (ie : Bool) (lh vh : ℚ) (e : WheelEvent) (cy ty : ℚ) (r : InputRefs)
    (h : isOverlayOpen g cal pr = true) :
    handleWheel (isOverlayOpen g cal pr) ie lh vh e r = r ∧
    onTouchStart (isOverlayOpen g cal pr) cy r = r ∧
    onTouchMove (isOverlayOpen g cal pr) ie ty r = r := by
  rw [handleWheel, onTouchStart, onTouchMove, h]
  exact ⟨rfl, rfl, rfl⟩

theorem C10_overlay_blocks_input_witness :
    handleWheel (isOverlayOpen false false (some witSnapshot)) true 16 800
        ⟨120, .pixel⟩ ⟨3, 4, 5⟩ = ⟨3, 4, 5⟩ ∧
    onTouchStart (isOverlayOpen false false (some witSnapshot)) 250 ⟨3, 4, 5⟩ = ⟨3, 4, 5⟩ ∧
    onTouchMove (isOverlayOpen false false (some witSnapshot)) true 260 ⟨3, 4, 5⟩ =
      ⟨3, 4, 5⟩ :=
  C10_overlay_blocks_input false false (some witSnapshot) true 16 800 ⟨120, .pixel⟩
    250 260 ⟨3, 4, 5⟩ rfl

end Immovable
